import Mathlib

/-!
Verification of the CA-guide exam/practice application core: the quiz
session state machine (App.tsx) and the incremental lesson-stream parser
(ClassesScreen.parseMarkdownToSections), shallowly embedded in Lean.

JavaScript `Record<number, number>` maps are modelled as total functions
into `Option`; a missing key is `none`.  JavaScript numbers used as
indices, option choices and seconds are modelled as `Int`.
-/

namespace CAGuide

/-- Session status, from the `ExamState.status` union type in types.ts:
idle | loading | active | finished | error. -/
inductive Status
  | idle
  | loading
  | active
  | finished
  | error
deriving DecidableEq

/-- A quiz question, from the `Question` interface in types.ts. -/
structure Question where
  id : String
  text : String
  options : List String
  correctOptionIndex : Int
  explanation : String
deriving DecidableEq

instance : Inhabited Question := ⟨⟨"", "", [], 0, ""⟩⟩

/-- Session state, from the `ExamState` interface in types.ts.
`answers` and `flagged` are JS records keyed by question index;
a key absent from `answers` is `none`, a key absent from `flagged`
reads as `false` (JS `undefined` is falsy in every use site). -/
structure ExamState where
  status : Status
  questions : List Question
  currentQuestionIndex : Int
  answers : Int → Option Int
  flagged : Int → Bool
  startTime : Option Int
  timeRemaining : Int
  score : Nat
  error : Option String

/-- Embeds `initialState` from App.tsx (the `error` field is absent,
i.e. `none`). -/
def initialState : ExamState :=
  { status := .idle
    questions := []
    currentQuestionIndex := 0
    answers := fun _ => none
    flagged := fun _ => false
    startTime := none
    timeRemaining := 0
    score := 0
    error := none }

/-- Embeds `calculateScore` from App.tsx: fold over the questions paired
with their indices (`forEach((q, idx) => ...)`), incrementing the score
whenever `state.answers[idx] === q.correctOptionIndex`. -/
def calculateScore (state : ExamState) : Nat :=
  (state.questions.enum).foldl
    (fun score iq =>
      if state.answers (iq.1 : Int) = some iq.2.correctOptionIndex then score + 1 else score)
    0

/-- Embeds `handleSubmit` from App.tsx. -/
def handleSubmit (prev : ExamState) : ExamState :=
  { prev with status := .finished, score := calculateScore prev }

/-- Embeds `handleAnswer` from App.tsx: spread of `prev.answers` with
key `questionIndex` (re)bound to `optionIndex`. -/
def handleAnswer (questionIndex optionIndex : Int) (prev : ExamState) : ExamState :=
  { prev with
    answers := fun j => if j = questionIndex then some optionIndex else prev.answers j }

/-- Embeds `handleFlag` from App.tsx: spread of `prev.flagged` with
key `questionIndex` bound to `!prev.flagged[questionIndex]`. -/
def handleFlag (questionIndex : Int) (prev : ExamState) : ExamState :=
  { prev with
    flagged := fun j => if j = questionIndex then !prev.flagged questionIndex else prev.flagged j }

/-- Embeds `handleNavigate` from App.tsx. -/
def handleNavigate (questionIndex : Int) (prev : ExamState) : ExamState :=
  { prev with currentQuestionIndex := questionIndex }

/-- Embeds `handleRestart` from App.tsx: `setExamState(initialState)`. -/
def handleRestart (_prev : ExamState) : ExamState :=
  initialState

/-- Embeds the `setExamState` call at the top of `startQuizGeneration`
in App.tsx: `{ ...prev, status: 'loading' }`. -/
def startLoading (prev : ExamState) : ExamState :=
  { prev with status := .loading }

/-- The error message installed by the catch branch of
`startQuizGeneration` in App.tsx. -/
def genFailureMsg : String := "Failed to generate exam. Please try again."

/-- Embeds the catch branch of `startQuizGeneration` in App.tsx:
`{ ...prev, status: 'idle', error: "Failed to generate exam. Please try again." }`. -/
def generationFailure (prev : ExamState) : ExamState :=
  { prev with status := .idle, error := some genFailureMsg }

/-- Embeds the body of the `setInterval` callback of the timer effect in
App.tsx: at `timeRemaining <= 1` the tick zeroes the clock, moves to
`finished` and scores with `calculateScore`; otherwise it decrements. -/
def timerTickBody (prev : ExamState) : ExamState :=
  if prev.timeRemaining ≤ 1 then
    { prev with timeRemaining := 0, status := .finished, score := calculateScore prev }
  else
    { prev with timeRemaining := prev.timeRemaining - 1 }

/-- Embeds one cooperative timer tick: the effect in App.tsx installs the
interval only under `status === 'active' && timeRemaining > 0` (and clears
it as soon as that guard fails), so a tick fires the callback exactly when
the guard holds and is inert otherwise. -/
def timerTick (s : ExamState) : ExamState :=
  if s.status = .active ∧ s.timeRemaining > 0 then timerTickBody s else s

/-- Score as the specification words it: the number of indices
`i ∈ [0, len(questions))` whose recorded answer equals that question's
`correctOptionIndex`; an index with no recorded answer (`none`) never
matches `some _`, so it never counts. -/
def specScore (s : ExamState) : Nat :=
  ((List.range s.questions.length).filter
    (fun (i : Nat) =>
      decide (s.answers (i : Int) = some ((s.questions.getD i default).correctOptionIndex)))).length

/-- Helper: number of matching answers for the questions of `l`, the first
of which sits at index `k`; the lookup is abstracted as `ansN`. -/
def countMatches (ansN : Nat → Option Int) : Nat → List Question → Nat
  | _, [] => 0
  | k, q :: rest =>
    (if ansN k = some q.correctOptionIndex then 1 else 0) + countMatches ansN (k + 1) rest

theorem enumFrom_foldl_countMatches (ansN : Nat → Option Int) :
    ∀ (l : List Question) (k n : Nat),
      (List.enumFrom k l).foldl
        (fun score iq =>
          if ansN iq.1 = some iq.2.correctOptionIndex then score + 1 else score) n
        = n + countMatches ansN k l := by
  intro l
  induction l with
  | nil => intro k n; simp [countMatches, List.enumFrom]
  | cons q rest ih =>
    intro k n
    by_cases h : ansN k = some q.correctOptionIndex <;>
      simp [List.enumFrom, countMatches, h, ih]
    all_goals omega

theorem range_filter_countMatches (ansN : Nat → Option Int) :
    ∀ (l : List Question) (k : Nat),
      ((List.range l.length).filter
        (fun (i : Nat) =>
          decide (ansN (k + i) = some ((l.getD i default).correctOptionIndex)))).length
        = countMatches ansN k l := by
  intro l
  induction l with
  | nil => intro k; simp [countMatches]
  | cons q rest ih =>
    intro k
    have hq' : ∀ i ∈ List.range rest.length,
        ((fun (i : Nat) =>
          decide (ansN (k + i) = some (((q :: rest).getD i default).correctOptionIndex)))
            ∘ Nat.succ) i
          = (fun (i : Nat) =>
              decide (ansN (k + 1 + i) = some ((rest.getD i default).correctOptionIndex))) i := by
      intro i _
      simp only [Function.comp_apply, Nat.succ_eq_add_one, List.getD_cons_succ]
      rw [show k + (i + 1) = k + 1 + i by omega]
    rw [List.length_cons, List.range_succ_eq_map, List.filter_cons, List.filter_map,
      List.filter_congr hq']
    by_cases h : ansN k = some q.correctOptionIndex
    · rw [if_pos (by simp [h]), List.length_cons, List.length_map, ih]
      simp [countMatches, h]
      omega
    · rw [if_neg (by simp [h]), List.length_map, ih]
      simp [countMatches, h]

/-- The score installed by `handleSubmit` is `calculateScore`, and it
equals the specification count. -/
theorem calculateScore_eq_specScore (s : ExamState) : calculateScore s = specScore s := by
  have h1 : calculateScore s
      = 0 + countMatches (fun i => s.answers (i : Int)) 0 s.questions :=
    enumFrom_foldl_countMatches (fun i => s.answers (i : Int)) s.questions 0 0
  have h2 : specScore s
      = countMatches (fun i => s.answers (i : Int)) 0 s.questions := by
    have h3 := range_filter_countMatches (fun i => s.answers (i : Int)) s.questions 0
    rw [← h3, specScore]
    congr 1
    apply List.filter_congr
    intro i _
    rw [Nat.zero_add]
  rw [h1, h2, Nat.zero_add]

/-- C1: at the moment a session is finished by an explicit submit, the
stored score equals the number of indices `i ∈ [0, len(questions))` whose
answer equals `questions[i].correctOptionIndex`; an index with no answer
entry never counts. -/
theorem submit_score_spec (s : ExamState) :
    (handleSubmit s).status = .finished ∧ (handleSubmit s).score = specScore s :=
  ⟨rfl, calculateScore_eq_specScore s⟩

/-- Helper: a tick is inert whenever the session is not active. -/
theorem timerTick_inactive (s : ExamState) (h : s.status ≠ .active) : timerTick s = s := by
  rw [timerTick, if_neg]
  intro hc
  exact h hc.1

/-- C2: a tick never drives a non-negative clock negative; a tick fired at
the last remaining second moves to `finished` exactly once, zeroes the
clock and scores with the same scoring function as an explicit submit;
and ticks are inert outside `active`. -/
theorem timer_tick_spec (s : ExamState) :
    (0 ≤ s.timeRemaining → 0 ≤ (timerTick s).timeRemaining)
    ∧ (s.status = .active → 0 < s.timeRemaining → s.timeRemaining ≤ 1 →
        (timerTick s).status = .finished
        ∧ (timerTick s).timeRemaining = 0
        ∧ (timerTick s).score = calculateScore s
        ∧ (timerTick s).score = (handleSubmit s).score
        ∧ timerTick (timerTick s) = timerTick s)
    ∧ (s.status ≠ .active → timerTick s = s) := by
  refine ⟨?_, ?_, timerTick_inactive s⟩
  · intro h0
    rw [timerTick]
    split
    · rw [timerTickBody]
      split
      · exact le_refl 0
      · simp only []
        omega
    · exact h0
  · intro hact hpos hle
    have hguard : s.status = .active ∧ s.timeRemaining > 0 := ⟨hact, hpos⟩
    have hbody : timerTick s
        = { s with timeRemaining := 0, status := .finished, score := calculateScore s } := by
      rw [timerTick, if_pos hguard, timerTickBody, if_pos hle]
    refine ⟨by rw [hbody], by rw [hbody], by rw [hbody], by rw [hbody]; rfl, ?_⟩
    apply timerTick_inactive
    rw [hbody]
    intro hc
    cases hc

/-- A concrete active session on its last remaining second, used to
instantiate the timer claim. -/
def tickWitnessState : ExamState :=
  { status := .active
    questions := [⟨"q1", "t", ["a", "b", "c", "d"], 0, "e"⟩]
    currentQuestionIndex := 0
    answers := fun j => if j = 0 then some 0 else none
    flagged := fun _ => false
    startTime := none
    timeRemaining := 1
    score := 0
    error := none }

/-- A concrete finished session, on which ticks must be inert. -/
def tickFinishedState : ExamState :=
  { tickWitnessState with status := .finished, timeRemaining := 0 }

/-- Witness for the timer claim: all three parts instantiated on
concrete states. -/
theorem timer_tick_spec_witness :
    (0 ≤ (timerTick tickWitnessState).timeRemaining)
    ∧ ((timerTick tickWitnessState).status = .finished
        ∧ (timerTick tickWitnessState).timeRemaining = 0
        ∧ (timerTick tickWitnessState).score = calculateScore tickWitnessState
        ∧ (timerTick tickWitnessState).score = (handleSubmit tickWitnessState).score
        ∧ timerTick (timerTick tickWitnessState) = timerTick tickWitnessState)
    ∧ timerTick tickFinishedState = tickFinishedState :=
  ⟨(timer_tick_spec tickWitnessState).1 (by decide),
   (timer_tick_spec tickWitnessState).2.1 rfl (by decide) (by decide),
   (timer_tick_spec tickFinishedState).2.2 (by decide)⟩

/-- A concrete finished session with an empty answer map, used to refute
the frozen-after-finished claim. -/
def frozenProbeState : ExamState :=
  { status := .finished
    questions := [⟨"q1", "t", ["a", "b", "c", "d"], 0, "e"⟩]
    currentQuestionIndex := 0
    answers := fun _ => none
    flagged := fun _ => false
    startTime := none
    timeRemaining := 0
    score := 0
    error := none }

/-- C3 counterexample: `handleAnswer` carries no status guard, so invoking
it on a finished session does change the `answers` map (entry 0 goes from
absent to `some 0`), contradicting the claim that `answers` is frozen
after `finished`. -/
theorem finished_not_frozen_cex :
    frozenProbeState.status = .finished
    ∧ frozenProbeState.answers 0 = none
    ∧ (handleAnswer 0 0 frozenProbeState).answers 0 = some 0 := by
  refine ⟨rfl, rfl, ?_⟩
  simp [handleAnswer]

/-- C3 amended: on a finished session, `handleAnswer`, `handleFlag` and
`handleSubmit` never change `questions`, never leave `finished`, and
`handleSubmit` changes none of `questions`/`answers`/`flagged`; but the
unguarded `handleAnswer`/`handleFlag` may rewrite the `answers`/`flagged`
maps (freezing is enforced by rendering, which never mounts their callers
once the results screen is shown, not by the handlers themselves). -/
theorem finished_ops_amended (s : ExamState) (hs : s.status = .finished)
    (i v : Int) :
    ((handleAnswer i v s).questions = s.questions
      ∧ (handleAnswer i v s).score = s.score
      ∧ (handleAnswer i v s).flagged = s.flagged
      ∧ (handleAnswer i v s).status = .finished)
    ∧ ((handleFlag i s).questions = s.questions
      ∧ (handleFlag i s).score = s.score
      ∧ (handleFlag i s).answers = s.answers
      ∧ (handleFlag i s).status = .finished)
    ∧ ((handleSubmit s).questions = s.questions
      ∧ (handleSubmit s).answers = s.answers
      ∧ (handleSubmit s).flagged = s.flagged
      ∧ (handleSubmit s).status = .finished
      ∧ (handleSubmit s).score = calculateScore s) :=
  ⟨⟨rfl, rfl, rfl, by rw [handleAnswer]; exact hs⟩,
   ⟨rfl, rfl, rfl, by rw [handleFlag]; exact hs⟩,
   ⟨rfl, rfl, rfl, rfl, rfl⟩⟩

/-- Witness for the amended C3 statement on a concrete finished state. -/
theorem finished_ops_amended_witness :
    (handleAnswer 0 0 frozenProbeState).questions = frozenProbeState.questions
    ∧ (handleSubmit frozenProbeState).answers = frozenProbeState.answers
    ∧ (handleFlag 0 frozenProbeState).status = .finished :=
  ⟨(finished_ops_amended frozenProbeState rfl 0 0).1.1,
   (finished_ops_amended frozenProbeState rfl 0 0).2.2.2.1,
   (finished_ops_amended frozenProbeState rfl 0 0).2.1.2.2.2⟩

/-- A concrete active single-question session, used to refute the
navigation-clamp claim. -/
def navProbeState : ExamState :=
  { status := .active
    questions := [⟨"q1", "t", ["a", "b", "c", "d"], 0, "e"⟩]
    currentQuestionIndex := 0
    answers := fun _ => none
    flagged := fun _ => false
    startTime := none
    timeRemaining := 60
    score := 0
    error := none }

/-- C4 counterexample: `handleNavigate` performs no range check, so
navigating to index 5 in a 1-question session changes
`currentQuestionIndex` from 0 to the out-of-range 5 instead of leaving it
unchanged. -/
theorem navigate_oob_cex :
    navProbeState.questions.length = 1
    ∧ ((5 : Int) < 0 ∨ (navProbeState.questions.length : Int) ≤ 5)
    ∧ navProbeState.currentQuestionIndex = 0
    ∧ (handleNavigate 5 navProbeState).currentQuestionIndex = 5 :=
  ⟨rfl, by decide, rfl, rfl⟩

/-- C4 amended: `handleNavigate` assigns `currentQuestionIndex`
unconditionally (in or out of range, no clamp) and never crashes; every
other field is untouched.  Range discipline is left to its callers. -/
theorem navigate_assign_amended (i : Int) (s : ExamState) :
    (handleNavigate i s).currentQuestionIndex = i
    ∧ (handleNavigate i s).status = s.status
    ∧ (handleNavigate i s).questions = s.questions
    ∧ (handleNavigate i s).answers = s.answers
    ∧ (handleNavigate i s).flagged = s.flagged
    ∧ (handleNavigate i s).score = s.score
    ∧ (handleNavigate i s).timeRemaining = s.timeRemaining :=
  ⟨rfl, rfl, rfl, rfl, rfl, rfl, rfl⟩

/-- A concrete prior session holding data (as after a finished exam), from
which a new generation attempt is started and fails. -/
def priorDataState : ExamState :=
  { status := .finished
    questions := [⟨"q1", "t", ["a", "b", "c", "d"], 0, "e"⟩]
    currentQuestionIndex := 0
    answers := fun j => if j = 0 then some 1 else none
    flagged := fun j => j = 0
    startTime := none
    timeRemaining := 0
    score := 0
    error := none }

/-- C5 counterexample: when generation fails, the catch branch spreads
`prev` and only overwrites `status`/`error`, so question, answer and flag
data held before the attempt survives — the state is not reset to the
initial empty form. -/
theorem generation_failure_reset_cex :
    (generationFailure (startLoading priorDataState)).status = .idle
    ∧ (generationFailure (startLoading priorDataState)).questions ≠ initialState.questions
    ∧ (generationFailure (startLoading priorDataState)).answers 0 = some 1
    ∧ (generationFailure (startLoading priorDataState)).flagged 0 = true := by
  refine ⟨rfl, ?_, by simp [generationFailure, startLoading, priorDataState], by decide⟩
  simp [generationFailure, startLoading, priorDataState, initialState]

/-- C5 amended: a failed generation surfaces the error and returns the
status to `idle`, but performs no reset: every other field keeps its
value from before the attempt (in particular no data produced during the
failed attempt is added, since questions are only installed on success). -/
theorem generation_failure_amended (s : ExamState) :
    (generationFailure (startLoading s)).status = .idle
    ∧ (generationFailure (startLoading s)).error = some genFailureMsg
    ∧ (generationFailure (startLoading s)).questions = s.questions
    ∧ (generationFailure (startLoading s)).answers = s.answers
    ∧ (generationFailure (startLoading s)).flagged = s.flagged
    ∧ (generationFailure (startLoading s)).currentQuestionIndex = s.currentQuestionIndex
    ∧ (generationFailure (startLoading s)).timeRemaining = s.timeRemaining
    ∧ (generationFailure (startLoading s)).score = s.score :=
  ⟨rfl, rfl, rfl, rfl, rfl, rfl, rfl, rfl⟩

/-- C6: restart yields exactly the initial state from any prior state:
idle status, no questions, empty answer and flag maps, zero index, zero
clock, zero score. -/
theorem restart_initial_spec (s : ExamState) :
    handleRestart s = initialState
    ∧ initialState.status = .idle
    ∧ initialState.questions = []
    ∧ (∀ i, initialState.answers i = none)
    ∧ (∀ i, initialState.flagged i = false)
    ∧ initialState.currentQuestionIndex = 0
    ∧ initialState.timeRemaining = 0
    ∧ initialState.score = 0 :=
  ⟨rfl, rfl, rfl, fun _ => rfl, fun _ => rfl, rfl, rfl, rfl⟩

/-- Embeds `Math.round` on finite values: round half toward positive
infinity. -/
def jsRound (x : ℚ) : ℤ := Int.floor (x + 1 / 2)

/-- Embeds the percentage of ResultsScreen.tsx:
`Math.round((correctCount / totalQuestions) * 100)` under JS number
semantics.  When `totalQuestions = 0` the division yields NaN (for 0/0)
or Infinity, and `Math.round` of those is not a finite integer, modelled
as `none`; the view then renders the non-numeric text, never `0%`. -/
def resultsPercentage (correctCount totalQuestions : Nat) : Option Int :=
  if totalQuestions = 0 then none
  else some (jsRound (((correctCount : ℚ) / (totalQuestions : ℚ)) * 100))

/-- A degenerate active session whose question list is empty (reachable
when the generator returns an empty array, which the code accepts). -/
def emptyActiveState : ExamState :=
  { initialState with status := .active, timeRemaining := 60 }

/-- C9: submitting a zero-question session reaches `finished` with score
0, but the results percentage is `Math.round((0/0)*100) = NaN`, not the
0% the specification requires — the display has no divide-by-zero
guard. -/
theorem zero_questions_percentage_bug :
    (handleSubmit emptyActiveState).status = .finished
    ∧ (handleSubmit emptyActiveState).questions.length = 0
    ∧ (handleSubmit emptyActiveState).score = 0
    ∧ resultsPercentage (handleSubmit emptyActiveState).score
        (handleSubmit emptyActiveState).questions.length = none
    ∧ resultsPercentage 0 0 ≠ some 0 :=
  ⟨rfl, rfl, rfl, rfl, by decide⟩

/-- From the `LessonSection` interface in types.ts. -/
structure LessonSection where
  title : String
  content : String
deriving DecidableEq

/-- Whitespace as trimmed by JS `String.prototype.trim` (for the
character repertoire arising here: space, tab, CR, LF). -/
def isJsSpace (c : Char) : Bool := c.isWhitespace

/-- Embeds JS `str.trim()`: drop whitespace from both ends. -/
def jsTrim (l : List Char) : List Char :=
  ((l.dropWhile isJsSpace).reverse.dropWhile isJsSpace).reverse

/-- Embeds JS `str.split(sep)` for a single-character separator: splitting
the empty string gives one empty piece, and every separator occurrence
starts a new piece. -/
def jsSplit (sep : Char) : List Char → List (List Char)
  | [] => [[]]
  | c :: cs =>
    if c = sep then [] :: jsSplit sep cs
    else
      match jsSplit sep cs with
      | [] => [[c]]
      | piece :: pieces => (c :: piece) :: pieces

/-- The section marker of `parseMarkdownToSections`: `'## '`. -/
def headerMarker : List Char := ['#', '#', ' ']

/-- Embeds the header test of `parseMarkdownToSections`:
`line.trim().startsWith('## ')`. -/
def isHeader (line : List Char) : Bool :=
  (jsTrim line).take 3 == headerMarker

/-- Embeds `currentContent.join('\n')`. -/
def joinLines : List (List Char) → List Char
  | [] => []
  | [l] => l
  | l :: ls => l ++ '\n' :: joinLines ls

/-- Embeds the `pushSection` closure of `parseMarkdownToSections`: emit
the open section (empty title, i.e. JS falsy string, means no section is
open), trimming the newline-joined body. -/
def pushSection (currentTitle : List Char) (currentContent : List (List Char))
    (sections : List LessonSection) : List LessonSection :=
  if currentTitle = [] then sections
  else sections ++ [⟨String.mk currentTitle, String.mk (jsTrim (joinLines currentContent))⟩]

/-- Embeds the line loop of `parseMarkdownToSections`: a header line
closes the open section and opens a new one titled
`line.trim().substring(3).trim()`; other lines accumulate into the open
section and are dropped when none is open; the trailing `pushSection()`
emits the final open section. -/
def processLines : List Char → List (List Char) → List LessonSection → List (List Char) →
    List LessonSection
  | currentTitle, currentContent, sections, [] => pushSection currentTitle currentContent sections
  | currentTitle, currentContent, sections, line :: rest =>
    if isHeader line then
      processLines (jsTrim ((jsTrim line).drop 3)) []
        (pushSection currentTitle currentContent sections) rest
    else if currentTitle = [] then
      processLines currentTitle currentContent sections rest
    else
      processLines currentTitle (currentContent ++ [line]) sections rest

/-- Embeds `parseMarkdownToSections` from ClassesScreen.tsx. -/
def parseMarkdownToSections (markdown : String) : List LessonSection :=
  processLines [] [] [] (jsSplit '\n' markdown.data)

/-- The spec's worked example buffer. -/
def exampleBuffer : String := "## Intro\nHello\n## Body\nWorld"

/-- C7: the parser maps the example buffer to exactly the two sections
titled Intro and Body with their trimmed one-line bodies. -/
theorem parse_example_spec :
    parseMarkdownToSections exampleBuffer = [⟨"Intro", "Hello"⟩, ⟨"Body", "World"⟩] := by
  decide

/-- C8: content before the first header is silently dropped — parsing
`pre ++ rest` with a headerless prefix equals parsing `rest` alone — and
a buffer without any header line parses to zero sections, which is not
an error. -/
theorem headerless_drop_spec :
    (∀ (pre rest : List (List Char)), (∀ l ∈ pre, isHeader l = false) →
      processLines [] [] [] (pre ++ rest) = processLines [] [] [] rest)
    ∧ (∀ md : String, (∀ l ∈ jsSplit '\n' md.data, isHeader l = false) →
      parseMarkdownToSections md = []) := by
  have hmain : ∀ (pre : List (List Char)), (∀ l ∈ pre, isHeader l = false) →
      ∀ rest, processLines [] [] [] (pre ++ rest) = processLines [] [] [] rest := by
    intro pre
    induction pre with
    | nil => intro _ rest; rfl
    | cons l ls ih =>
      intro h rest
      have hl : isHeader l = false := h l (List.mem_cons_self l ls)
      rw [List.cons_append]
      simp only [processLines, hl, Bool.false_eq_true, if_false, if_pos rfl]
      exact ih (fun x hx => h x (List.mem_cons_of_mem l hx)) rest
  refine ⟨fun pre rest h => hmain pre h rest, ?_⟩
  intro md h
  have hdrop := hmain (jsSplit '\n' md.data) h []
  rw [List.append_nil] at hdrop
  rw [parseMarkdownToSections, hdrop]
  rfl

/-- A concrete headerless buffer. -/
def headerlessBuffer : String := "just text\nmore text"

/-- Witness for the headerless-drop claim on concrete inputs. -/
theorem headerless_drop_spec_witness :
    processLines [] [] [] ([['H', 'i']] ++ [['#', '#', ' ', 'A']])
      = processLines [] [] [] [['#', '#', ' ', 'A']]
    ∧ parseMarkdownToSections headerlessBuffer = [] :=
  ⟨headerless_drop_spec.1 [['H', 'i']] [['#', '#', ' ', 'A']] (by decide),
   headerless_drop_spec.2 headerlessBuffer (by decide)⟩

theorem dropWhile_head_false (p : Char → Bool) :
    ∀ (l : List Char) (c : Char) (cs : List Char), l.dropWhile p = c :: cs → p c = false := by
  intro l
  induction l with
  | nil => intro c cs h; exact absurd h (by simp)
  | cons a t ih =>
    intro c cs h
    rw [List.dropWhile_cons] at h
    by_cases hp : p a
    · rw [if_pos hp] at h
      exact ih c cs h
    · rw [if_neg hp] at h
      injection h with h1 _
      rw [← h1]
      exact Bool.eq_false_iff.mpr hp

theorem jsTrim_eq_nil_all_space (l : List Char) (h : jsTrim l = []) :
    ∀ c ∈ l, isJsSpace c = true := by
  rw [jsTrim, List.reverse_eq_nil_iff] at h
  have h2 : ∀ c ∈ (l.dropWhile isJsSpace).reverse, isJsSpace c = true := by
    intro c hc
    exact List.dropWhile_eq_nil_iff.mp h c hc
  intro c hc
  have hsplit := List.takeWhile_append_dropWhile (p := isJsSpace) (l := l)
  rw [← hsplit] at hc
  rcases List.mem_append.mp hc with h3 | h3
  · exact List.mem_takeWhile_imp h3
  · exact h2 c (List.mem_reverse.mpr h3)

/-- A header line always yields a non-empty (JS-truthy) section title:
the trimmed line starts with the marker and ends in a non-whitespace
character, so stripping the marker and re-trimming cannot erase it. -/
theorem header_title_nonempty (l : List Char) (h : isHeader l = true) :
    jsTrim ((jsTrim l).drop 3) ≠ [] := by
  intro hnil
  have hrev : (jsTrim l).reverse = ((l.dropWhile isJsSpace).reverse).dropWhile isJsSpace := by
    rw [jsTrim, List.reverse_reverse]
  rw [isHeader] at h
  have htake : (jsTrim l).take 3 = headerMarker := eq_of_beq h
  have hsplit : jsTrim l = headerMarker ++ (jsTrim l).drop 3 := by
    rw [← htake, List.take_append_drop]
  have hall : ∀ c ∈ (jsTrim l).drop 3, isJsSpace c = true := jsTrim_eq_nil_all_space _ hnil
  cases hT : (jsTrim l).drop 3 with
  | nil =>
    have hshape : (jsTrim l).reverse = ' ' :: ['#', '#'] := by
      rw [hsplit, hT, List.append_nil]
      rfl
    have hws : isJsSpace ' ' = false :=
      dropWhile_head_false isJsSpace _ ' ' ['#', '#'] (hrev.symm.trans hshape)
    exact absurd hws (by decide)
  | cons d ds =>
    obtain ⟨e, es, he⟩ : ∃ e es, (d :: ds).reverse = e :: es := by
      cases hcase : (d :: ds).reverse with
      | nil => exact absurd hcase (by simp)
      | cons e es => exact ⟨e, es, rfl⟩
    have hmem : e ∈ d :: ds := by
      rw [← List.mem_reverse, he]
      exact List.mem_cons_self e es
    have hwsE : isJsSpace e = true := hall e (hT ▸ hmem)
    have hshape : (jsTrim l).reverse = e :: (es ++ [' ', '#', '#']) := by
      rw [hsplit, hT, List.reverse_append, he]
      rfl
    have hws : isJsSpace e = false :=
      dropWhile_head_false isJsSpace _ e _ (hrev.symm.trans hshape)
    rw [hwsE] at hws
    exact Bool.noConfusion hws

theorem jsSplit_no_sep (sep : Char) :
    ∀ (l : List Char), sep ∉ l → jsSplit sep l = [l] := by
  intro l
  induction l with
  | nil => intro _; rfl
  | cons c cs ih =>
    intro h
    have hc : ¬ c = sep := fun hcs => h (hcs ▸ List.mem_cons_self c cs)
    have hcs : sep ∉ cs := fun hm => h (List.mem_cons_of_mem c hm)
    simp only [jsSplit]
    rw [if_neg hc, ih hcs]

theorem jsSplit_append_sep (sep : Char) :
    ∀ (a : List Char), sep ∉ a →
      ∀ rest, jsSplit sep (a ++ sep :: rest) = a :: jsSplit sep rest := by
  intro a
  induction a with
  | nil =>
    intro _ rest
    simp [jsSplit]
  | cons c cs ih =>
    intro h rest
    have hc : ¬ c = sep := fun hcs => h (hcs ▸ List.mem_cons_self c cs)
    have hcs : sep ∉ cs := fun hm => h (List.mem_cons_of_mem c hm)
    rw [List.cons_append]
    simp only [jsSplit]
    rw [if_neg hc, ih hcs rest]

/-- A buffer holding one already-complete header line titled A followed by
the line under test. -/
def probeBuffer (l : List Char) : String :=
  String.mk (['#', '#', ' ', 'A', '\n'] ++ l)

/-- C10: a line is treated as a section header exactly when its trimmed
form starts with the marker-plus-space: after an open section, a header
line (even an indented one) opens a second section titled with the marker
stripped and trimmed, while any other line (such as one missing the space
after the marker) is accumulated as ordinary content. -/
theorem header_test_spec (l : List Char) (hnl : '\n' ∉ l) :
    (isHeader l = true →
      parseMarkdownToSections (probeBuffer l)
        = [⟨"A", ""⟩, ⟨String.mk (jsTrim ((jsTrim l).drop 3)), ""⟩])
    ∧ (isHeader l = false →
      parseMarkdownToSections (probeBuffer l) = [⟨"A", String.mk (jsTrim l)⟩]) := by
  have hstep : parseMarkdownToSections (probeBuffer l) = processLines ['A'] [] [] [l] := by
    rw [parseMarkdownToSections,
      show (probeBuffer l).data = ['#', '#', ' ', 'A'] ++ '\n' :: l from rfl,
      jsSplit_append_sep '\n' (['#', '#', ' ', 'A']) (by decide) l,
      jsSplit_no_sep '\n' l hnl]
    rfl
  constructor
  · intro h
    rw [hstep]
    simp only [processLines, h, if_true, pushSection, header_title_nonempty l h,
      List.cons_ne_nil, if_false, if_neg]
    rfl
  · intro h
    rw [hstep]
    simp only [processLines, h, Bool.false_eq_true, if_false, List.cons_ne_nil,
      List.nil_append, pushSection]
    rfl

/-- Witness for the header-test claim: an indented header line is still a
header; a line missing the space after the marker is plain content. -/
theorem header_test_spec_witness :
    parseMarkdownToSections (probeBuffer [' ', ' ', '#', '#', ' ', 'S', 'u', 'b'])
      = [⟨"A", ""⟩, ⟨"Sub", ""⟩]
    ∧ parseMarkdownToSections (probeBuffer ['#', '#', 'T']) = [⟨"A", "##T"⟩] :=
  ⟨((header_test_spec [' ', ' ', '#', '#', ' ', 'S', 'u', 'b'] (by decide)).1
      (by decide)).trans (by decide),
   ((header_test_spec ['#', '#', 'T'] (by decide)).2 (by decide)).trans (by decide)⟩

end CAGuide
